import Mathlib

/-!
Verification of the hyprpy IPC/event-dispatch core.

This file gives a shallow embedding of the two source modules

  * `src/pyprland/utils/signals.py` — the `Signal` observer primitive
    (`connect` / `disconnect` / `emit`);
  * `hyprpy/components/instances.py` — the `Instance.watch` event loop and
    its inner `_handle_socket_data` dispatcher.

and proves the spec's claims about them.  Python callbacks are modelled by an
abstract type `α` of callback identities together with an external behaviour
function `raises : α → Bool` saying whether invoking a callback raises; Python
exceptions are modelled by the `PyErr` type (`ValueError` is the only one the
embedded code can raise).  Strings from the event socket are modelled as
`List Char`.
-/

namespace Hyprpy

/-- The Python exceptions the embedded code can raise.  `Signal.disconnect`
raises `ValueError` via `list.remove`, tuple unpacking of a failed
`str.split` raises `ValueError`, and `int()` raises `ValueError` on a
malformed literal.  The spec's error taxonomy names the `disconnect` case
`NotConnectedError`. -/
inductive PyErr where
  | valueError
  deriving DecidableEq, Repr

/-- One invocation of an observer callback during `Signal.emit`:
the callback called, the sender passed as its first positional argument,
and the keyword-argument bag it received. -/
structure Call (σ α κ : Type) where
  callback : α
  sender : σ
  kwargs : κ
  deriving DecidableEq, Repr

/-- Embedding of `pyprland.utils.signals.Signal`: a sender handle and an
ordered, duplicate-permitting list of observer callbacks
(`self._observers`). -/
structure Signal (σ α : Type) where
  sender : σ
  observers : List α
  deriving DecidableEq, Repr

/-- Embedding of `Signal.connect`: appends the callback to `self._observers`.
(The Python signature assertions `assert_is_callable_and_has_first_param_sender`
and `assert_is_callable_and_accepts_kwargs` are about Python-level
introspection; every value of the abstract callback type `α` models a
callback that passes them.) -/
def Signal.connect (s : Signal σ α) (cb : α) : Signal σ α :=
  { s with observers := s.observers ++ [cb] }

/-- A sequence of `connect` calls, in order. -/
def connectAll (s : Signal σ α) (cbs : List α) : Signal σ α :=
  cbs.foldl Signal.connect s

/-- Embedding of Python `list.remove` as used by `Signal.disconnect`:
remove the first occurrence, or `none` when the element is absent
(Python raises `ValueError` in that case). -/
def removeFirst [DecidableEq α] : List α → α → Option (List α)
  | [], _ => none
  | x :: xs, y =>
    if x = y then some xs
    else (removeFirst xs y).map (fun l => x :: l)

/-- Embedding of `Signal.disconnect`: `self._observers.remove(callback)` — removes the
first matching occurrence, raises `ValueError` when the callback is not
registered (the spec's `NotConnectedError`). -/
def Signal.disconnect [DecidableEq α] (s : Signal σ α) (cb : α) :
    Except PyErr (Signal σ α) :=
  match removeFirst s.observers cb with
  | none => .error .valueError
  | some l => .ok { s with observers := l }

/-- The loop body of `Signal.emit`: invoke each observer in order, passing
the sender and the kwargs bag.  `raises` is the external behaviour of the
callbacks; a raising callback aborts the loop and the exception propagates
(the `Bool` result records whether that happened). -/
def emitLoop (sender : σ) (kw : κ) (raises : α → Bool) :
    List α → List (Call σ α κ) × Bool
  | [] => ([], false)
  | cb :: rest =>
    if raises cb then ([⟨cb, sender, kw⟩], true)
    else
      let r := emitLoop sender kw raises rest
      (⟨cb, sender, kw⟩ :: r.1, r.2)

/-- Embedding of `Signal.emit(**kwargs)`: `for callback in self._observers:
callback(self._sender, **kwargs)`.  Returns the trace of callback
invocations and whether an observer's exception propagated to the caller. -/
def Signal.emit (s : Signal σ α) (kw : κ) (raises : α → Bool) :
    List (Call σ α κ) × Bool :=
  emitLoop s.sender kw raises s.observers

/-! ### String helpers mirroring the Python string operations used by
`Instance.watch._handle_socket_data` -/

/-- Does `pat` occur at the head of `cs`? (helper for substring search). -/
def startsWithChars : List Char → List Char → Bool
  | [], _ => true
  | _ :: _, [] => false
  | p :: ps, c :: cs => p == c && startsWithChars ps cs

/-- Embedding of Python `line.split(sep, maxsplit=1)` restricted to the
two-part outcome: split at the first occurrence of `sep`, returning the
parts before and after it, or `none` when `sep` does not occur (in which
case Python returns a one-element list and the tuple unpacking
`event_name, event_data = ...` raises `ValueError`). -/
def splitOnFirst (sep : List Char) : List Char → Option (List Char × List Char)
  | [] => none
  | c :: cs =>
    if startsWithChars sep (c :: cs) then some ([], (c :: cs).drop sep.length)
    else (splitOnFirst sep cs).map (fun p => (c :: p.1, p.2))

/-- Embedding of Python `data.split('\n')`: split on every newline,
keeping empty segments (the handler filters those out afterwards). -/
def splitLines : List Char → List (List Char)
  | [] => [[]]
  | c :: cs =>
    if c = '\n' then [] :: splitLines cs
    else
      match splitLines cs with
      | [] => [[c]]
      | l :: ls => (c :: l) :: ls

/-- Embedding of `event_data.split(',')[0]`: the characters before the
first comma (the whole string when there is no comma). -/
def takeUntilComma : List Char → List Char
  | [] => []
  | c :: cs => if c = ',' then [] else c :: takeUntilComma cs

/-- The whitespace characters Python `str.strip()` (as performed by
`int()`) removes from both ends. -/
def isPySpace (c : Char) : Bool :=
  c = ' ' || c = '\t' || c = '\n' || c = '\r' || c = '\x0b' || c = '\x0c'

/-- Python's stripping of surrounding whitespace, as `int()` applies it. -/
def stripChars (cs : List Char) : List Char :=
  ((cs.dropWhile isPySpace).reverse.dropWhile isPySpace).reverse

/-- Numeric value of a digit sequence (most significant first, accumulator
carried in). -/
def digitsVal (acc : Nat) : List Char → Nat
  | [] => acc
  | c :: cs => digitsVal (acc * 10 + (c.toNat - 48)) cs

/-- Digit-part grammar of a Python integer literal after the first digit:
`digit (["_"] digit)*` — an underscore may only stand between two digits.
`pend` records that the previous character was an underscore, which must
be followed by a digit. -/
def pyDigitsGo : Nat → Bool → List Char → Option Nat
  | acc, false, [] => some acc
  | _, true, [] => none
  | acc, pend, c :: cs =>
    if c = '_' then
      if pend then none else pyDigitsGo acc true cs
    else if c.isDigit then pyDigitsGo (acc * 10 + (c.toNat - 48)) false cs
    else none

/-- The unsigned digit part of a Python integer literal: at least one
digit, underscores only between digits. -/
def pyDigits : List Char → Option Nat
  | [] => none
  | c :: cs => if c.isDigit then pyDigitsGo (c.toNat - 48) false cs else none

/-- Embedding of Python `int(event_data)` (base 10, ASCII): strip
surrounding whitespace, accept an optional sign followed by a digit part,
and fail (`ValueError`) on anything else. -/
def pyInt (s : List Char) : Option Int :=
  match stripChars s with
  | [] => none
  | c :: cs =>
    if c = '+' then (pyDigits cs).map Int.ofNat
    else if c = '-' then (pyDigits cs).map (fun n => -(n : Int))
    else (pyDigits (c :: cs)).map Int.ofNat

/-! ### The event dispatcher `Instance.watch._handle_socket_data` -/

/-- The payload expression shared by the three workspace events:
`int(event_data) if event_data != 'special' else -99`.
`none` models the `ValueError` that `int()` raises on a malformed
literal. -/
def decodeWorkspaceId (event_data : List Char) : Option Int :=
  if event_data = "special".toList then some (-99) else pyInt event_data

/-- The value types an emitted signal-data field can carry:
Python `None`, an `int`, or a `str`. -/
inductive PyValue where
  | none
  | int (n : Int)
  | str (s : List Char)
  deriving DecidableEq, Repr

/-- One `signal.emit(field=value)` call performed by the dispatcher:
which event's signal was emitted, the keyword name, and the value.
(`Signal.emit` then fans this out to each observer, per the `Signal`
theorems.) -/
structure Emission where
  event : List Char
  field : List Char
  value : PyValue
  deriving DecidableEq, Repr

/-- The six signals the `signal_for_event` table of `_handle_socket_data`
maps event names to.  In the source these are `DeprecatedSignal` instances
owned by the `Instance`; `DeprecatedSignal` lives in `hyprpy/utils/signals.py`
which is not among the sources — per the spec it is a `Signal` (the
dispatcher touches only its `_observers` list and its `emit`). -/
structure WatchSignals (σ α : Type) where
  signal_window_created : Signal σ α
  signal_window_destroyed : Signal σ α
  signal_active_window_changed : Signal σ α
  signal_workspace_created : Signal σ α
  signal_workspace_destroyed : Signal σ α
  signal_active_workspace_changed : Signal σ α

/-- The six event names the `signal_for_event` table of
`_handle_socket_data` models. -/
def knownEventNames : List (List Char) :=
  ["openwindow".toList, "closewindow".toList, "activewindowv2".toList,
   "createworkspace".toList, "destroyworkspace".toList, "workspace".toList]

/-- The `signal_for_event` dictionary: protocol event name → bound signal;
`none` for names the dispatcher does not model. -/
def signalForEvent (st : WatchSignals σ α) (name : List Char) :
    Option (Signal σ α) :=
  if name = "openwindow".toList then some st.signal_window_created
  else if name = "closewindow".toList then some st.signal_window_destroyed
  else if name = "activewindowv2".toList then some st.signal_active_window_changed
  else if name = "createworkspace".toList then some st.signal_workspace_created
  else if name = "destroyworkspace".toList then some st.signal_workspace_destroyed
  else if name = "workspace".toList then some st.signal_active_workspace_changed
  else none

/-- The per-line body of `_handle_socket_data`:
split at the first `'>>'` (raising `ValueError` when absent), skip unknown
event names, skip signals with no observers, then decode the payload per
event and emit.  Returns the emissions the line causes, or the exception it
raises. -/
def handleLine (st : WatchSignals σ α) (line : List Char) :
    Except PyErr (List Emission) :=
  match splitOnFirst ">>".toList line with
  | none => .error .valueError
  | some (event_name, event_data) =>
    match signalForEvent st event_name with
    | none => .ok []
    | some signal =>
      if signal.observers.isEmpty then .ok []
      else if event_name = "openwindow".toList then
        .ok [⟨event_name, "created_window_address".toList,
              .str (takeUntilComma event_data)⟩]
      else if event_name = "closewindow".toList then
        .ok [⟨event_name, "destroyed_window_address".toList, .str event_data⟩]
      else if event_name = "activewindowv2".toList then
        .ok [⟨event_name, "active_window_address".toList,
              if event_data = ",".toList then .none else .str event_data⟩]
      else if event_name = "createworkspace".toList then
        match decodeWorkspaceId event_data with
        | some n => .ok [⟨event_name, "created_workspace_id".toList, .int n⟩]
        | none => .error .valueError
      else if event_name = "destroyworkspace".toList then
        match decodeWorkspaceId event_data with
        | some n => .ok [⟨event_name, "destroyed_workspace_id".toList, .int n⟩]
        | none => .error .valueError
      else if event_name = "workspace".toList then
        match decodeWorkspaceId event_data with
        | some n => .ok [⟨event_name, "active_workspace_id".toList, .int n⟩]
        | none => .error .valueError
      else .ok []

/-- The `for line in lines:` loop of `_handle_socket_data`: process the
lines in order; an exception raised by a line propagates and the remaining
lines are not processed. -/
def handleLines (st : WatchSignals σ α) : List (List Char) →
    Except PyErr (List Emission)
  | [] => .ok []
  | l :: ls =>
    match handleLine st l with
    | .error e => .error e
    | .ok es =>
      match handleLines st ls with
      | .error e => .error e
      | .ok rest => .ok (es ++ rest)

/-- Embedding of `_handle_socket_data(data)`: split the chunk on newlines, drop empty
segments (`filter(lambda line: len(line) > 0, ...)`), and run the per-line
loop. -/
def handleSocketData (st : WatchSignals σ α) (data : List Char) :
    Except PyErr (List Emission) :=
  handleLines st ((splitLines data).filter (fun l => l ≠ []))

/-! ### The `Instance.watch` loop -/

/-- The operations `watch` performs on the event socket, for tracing the
loop's behaviour. -/
inductive SocketAction where
  | connect
  | wait
  | read
  | close
  deriving DecidableEq, Repr

/-- The `while True:` body of `watch`, driven by a script of socket
outcomes: each entry is what one `wait()`/`read()` round yields — data, or
the exception the socket call raises.  Returns the actions performed and
`some e` when an exception escapes the loop (`none` when the script is
exhausted and the loop is still blocked in `wait()`; the loop has no normal
exit). -/
def watchLoop (st : WatchSignals σ α) :
    List (Except PyErr (List Char)) → List SocketAction × Option PyErr
  | [] => ([], none)
  | .error e :: _ => ([.wait], some e)
  | .ok data :: rest =>
    match handleSocketData st data with
    | .error e => ([.wait, .read], some e)
    | .ok _ =>
      let r := watchLoop st rest
      (.wait :: .read :: r.1, r.2)

/-- Embedding of `Instance.watch`: `try: connect(); while True: wait(); read(); handle()
finally: close()`.  `connectR` is the outcome of `self.event_socket.connect()`.
The `finally` block runs `close()` whenever control leaves the `try` block,
i.e. on every path on which the run exits. -/
def watchRun (st : WatchSignals σ α) (connectR : Except PyErr Unit)
    (script : List (Except PyErr (List Char))) :
    List SocketAction × Option PyErr :=
  match connectR with
  | .error e => ([.connect, .close], some e)
  | .ok _ =>
    let r := watchLoop st script
    match r.2 with
    | some e => (.connect :: r.1 ++ [.close], some e)
    | none => (.connect :: r.1, none)

/-! ### Concrete dispatcher states for witnesses and counterexamples -/

/-- A dispatcher state in which every signal has an empty observer list. -/
def noObsState : WatchSignals Unit Unit :=
  ⟨⟨(), []⟩, ⟨(), []⟩, ⟨(), []⟩, ⟨(), []⟩, ⟨(), []⟩, ⟨(), []⟩⟩

/-- A dispatcher state with one observer on
`signal_active_workspace_changed` (the signal bound to the `workspace`
event) and one on `signal_active_window_changed` (bound to
`activewindowv2`). -/
def wsObsState : WatchSignals Unit Unit :=
  ⟨⟨(), []⟩, ⟨(), []⟩, ⟨(), [()]⟩, ⟨(), []⟩, ⟨(), []⟩, ⟨(), [()]⟩⟩

/-- A dispatcher state with one observer on every signal. -/
def allObsState : WatchSignals Unit Unit :=
  ⟨⟨(), [()]⟩, ⟨(), [()]⟩, ⟨(), [()]⟩, ⟨(), [()]⟩, ⟨(), [()]⟩, ⟨(), [()]⟩⟩

/-! ## Lemmas about the `Signal` primitive -/

/-- Peeling one `connect` off a `connectAll`. -/
theorem connectAll_cons (s : Signal σ α) (c : α) (cs : List α) :
    connectAll s (c :: cs) = connectAll (s.connect c) cs := rfl

/-- Lemma: `connectAll` appends the callbacks, in order, and keeps the sender. -/
theorem connectAll_eq : ∀ (cbs : List α) (s : Signal σ α),
    connectAll s cbs = ⟨s.sender, s.observers ++ cbs⟩
  | [], s => by simp [connectAll]
  | c :: cs, s => by
    rw [connectAll_cons, connectAll_eq cs]
    simp [Signal.connect]

/-- When no observer raises, the emit loop calls every observer in order
with the sender and the kwargs bag, and no exception propagates. -/
theorem emitLoop_no_raise (sender : σ) (kw : κ) (raises : α → Bool) :
    ∀ obs : List α, (∀ cb ∈ obs, raises cb = false) →
      emitLoop sender kw raises obs
        = (obs.map (fun cb => ⟨cb, sender, kw⟩), false)
  | [], _ => rfl
  | cb :: rest, h => by
    have hcb : raises cb = false := h cb (by simp)
    have ih := emitLoop_no_raise sender kw raises rest
      (fun c hc => h c (by simp [hc]))
    simp [emitLoop, hcb, ih]

/-- Every callback the emit loop invokes comes from the observer list. -/
theorem emitLoop_calls_mem (sender : σ) (kw : κ) (raises : α → Bool) :
    ∀ obs : List α, ∀ c ∈ (emitLoop sender kw raises obs).1,
      c.callback ∈ obs
  | cb :: rest, c, hc => by
    by_cases hr : raises cb = true
    · simp [emitLoop, hr] at hc
      simp [hc]
    · simp [emitLoop, hr] at hc
      rcases hc with rfl | hc
      · simp
      · exact List.mem_cons_of_mem _
          (emitLoop_calls_mem sender kw raises rest c hc)

/-- Lemma: `removeFirst` fails exactly on elements that are absent. -/
theorem removeFirst_eq_none_iff [DecidableEq α] :
    ∀ (l : List α) (a : α), removeFirst l a = none ↔ a ∉ l
  | [], a => by simp [removeFirst]
  | x :: xs, a => by
    by_cases hx : x = a
    · subst hx
      simp [removeFirst]
    · simp [removeFirst, hx, removeFirst_eq_none_iff xs a,
        Ne.symm hx]

/-- Lemma: `removeFirst` removes exactly the first occurrence. -/
theorem removeFirst_append [DecidableEq α] :
    ∀ (pre : List α) (a : α) (post : List α), a ∉ pre →
      removeFirst (pre ++ a :: post) a = some (pre ++ post)
  | [], a, post, _ => by simp [removeFirst]
  | x :: pre, a, post, h => by
    have hx : ¬x = a := fun hxa => h (by simp [hxa.symm])
    have ih := removeFirst_append pre a post (fun hm => h (by simp [hm]))
    simp [removeFirst, hx, ih]

/-! ## Claim theorems about the `Signal` primitive -/

/-- C1: for every list of callbacks connected to a `Signal` (in order) and
every kwargs bag passed to one subsequent `emit`, `emit` invokes each
registered callback occurrence exactly once, in registration order, passing
the signal's sender as the first argument and exactly the kwargs bag given
to `emit` (stated for observers that return normally; a raising observer is
claim C9). -/
theorem connect_then_emit_invokes_in_order (sender : σ) (cbs : List α)
    (kw : κ) (raises : α → Bool) (h : ∀ cb ∈ cbs, raises cb = false) :
    Signal.emit (connectAll ⟨sender, []⟩ cbs) kw raises
      = (cbs.map (fun cb => ⟨cb, sender, kw⟩), false) := by
  rw [connectAll_eq]
  simpa [Signal.emit] using emitLoop_no_raise sender kw raises cbs h

/-- Witness for C1: three connects (one callback connected twice) and one
emit yield exactly three invocations, in registration order, each carrying
the sender `0` and the kwargs bag `7`. -/
theorem connect_then_emit_invokes_in_order_witness :
    Signal.emit (connectAll (⟨0, []⟩ : Signal Nat Nat) [1, 2, 1]) 7
        (fun _ => false)
      = ([⟨1, 0, 7⟩, ⟨2, 0, 7⟩, ⟨1, 0, 7⟩], false) :=
  connect_then_emit_invokes_in_order 0 [1, 2, 1] 7 (fun _ => false)
    (by simp)

/-- C6: `disconnect` removes the first matching occurrence of the
callback; after all registrations of a callback have been disconnected
(i.e. it is no longer in the observer list), `emit` never invokes it; and
`disconnect` of a callback that is not registered raises (`ValueError`,
which the spec's taxonomy calls `NotConnectedError`). -/
theorem disconnect_first_occurrence_and_not_connected [DecidableEq α]
    (κ : Type) (s : Signal σ α) (cb : α) :
    (∀ pre post, s.observers = pre ++ cb :: post → cb ∉ pre →
        s.disconnect cb = .ok ⟨s.sender, pre ++ post⟩)
    ∧ (cb ∉ s.observers → s.disconnect cb = .error .valueError)
    ∧ (cb ∉ s.observers → ∀ (kw : κ) (raises : α → Bool),
        ∀ c ∈ (s.emit kw raises).1, c.callback ≠ cb) := by
  refine ⟨?_, ?_, ?_⟩
  · intro pre post hobs hpre
    simp [Signal.disconnect, hobs, removeFirst_append pre cb post hpre]
  · intro hmem
    simp [Signal.disconnect, (removeFirst_eq_none_iff s.observers cb).mpr hmem]
  · intro hmem kw raises c hc heq
    exact hmem (heq ▸ emitLoop_calls_mem s.sender kw raises s.observers c hc)

/-- Witness for C6: on observers `[1, 2, 1]`, disconnecting `2` removes
exactly its (first) occurrence; on observers `[1]`, disconnecting `2`
raises, and an emit invokes no callback equal to `2`. -/
theorem disconnect_first_occurrence_and_not_connected_witness :
    Signal.disconnect (⟨0, [1, 2, 1]⟩ : Signal Nat Nat) 2 = .ok ⟨0, [1, 1]⟩
    ∧ Signal.disconnect (⟨0, [1]⟩ : Signal Nat Nat) 2 = .error .valueError
    ∧ ∀ c ∈ (Signal.emit (⟨0, [1]⟩ : Signal Nat Nat) 7
        (fun _ => false)).1, c.callback ≠ 2 :=
  ⟨(disconnect_first_occurrence_and_not_connected Nat ⟨0, [1, 2, 1]⟩ 2).1
      [1] [1] rfl (by decide),
   (disconnect_first_occurrence_and_not_connected Nat ⟨0, [1]⟩ 2).2.1
      (by decide),
   (disconnect_first_occurrence_and_not_connected Nat ⟨0, [1]⟩ 2).2.2
      (by decide) 7 (fun _ => false)⟩

/-- C9: if the observer following the leading segment `pre` raises during `emit`, the
error propagates to the caller of `emit` (second component `true`) and no
observer after it is invoked for that emission: the invocation trace is
exactly the leading segment followed by the raising observer. -/
theorem emit_fail_fast (sender : σ) (pre post : List α) (bad : α) (kw : κ)
    (raises : α → Bool) (hpre : ∀ cb ∈ pre, raises cb = false)
    (hbad : raises bad = true) :
    Signal.emit ⟨sender, pre ++ bad :: post⟩ kw raises
      = (pre.map (fun cb => ⟨cb, sender, kw⟩) ++ [⟨bad, sender, kw⟩],
         true) := by
  induction pre with
  | nil => simp [Signal.emit, emitLoop, hbad]
  | cons p pre ih =>
    have hp : raises p = false := hpre p (by simp)
    have ih' := ih (fun c hc => hpre c (by simp [hc]))
    simp only [Signal.emit, emitLoop] at ih' ⊢
    simp [hp, ih']

/-- Witness for C9: with observers `[1, 9, 2, 3]` where `9` raises, emit
invokes `1` then `9`, the error propagates, and `2`, `3` are never
invoked. -/
theorem emit_fail_fast_witness :
    Signal.emit (⟨0, [1, 9, 2, 3]⟩ : Signal Nat Nat) 7
        (fun cb => cb = 9)
      = ([⟨1, 0, 7⟩, ⟨9, 0, 7⟩], true) :=
  emit_fail_fast 0 [1] [2, 3] 9 7 (fun cb => cb = 9) (by decide)
    (by decide)

/-! ## Lemmas about the line parsing -/

/-- A list with an element is not empty (Bool form used by the
`if not signal._observers` check). -/
theorem isEmpty_false_of_ne_nil {β : Type} {l : List β} (h : l ≠ []) :
    l.isEmpty = false := by
  cases l with
  | nil => exact absurd rfl h
  | cons a l => rfl

/-- The separator token as a character list. -/
theorem gtgtChars : ">>".toList = ['>', '>'] := rfl

/-- A line containing no `'>'` has no `'>>'` separator, so the split (and
with it the tuple unpacking) fails. -/
theorem splitOnFirst_gtgt_eq_none :
    ∀ line : List Char, (∀ c ∈ line, c ≠ '>') →
      splitOnFirst ">>".toList line = none
  | [], _ => rfl
  | c :: cs, h => by
    have hc : ('>' : Char) ≠ c := Ne.symm (h c (by simp))
    have ih := splitOnFirst_gtgt_eq_none cs (fun d hd => h d (by simp [hd]))
    rw [gtgtChars] at ih ⊢
    simp [splitOnFirst, startsWithChars, hc, ih]

/-- Splitting `name ++ ">>" ++ data` at the first `'>>'` yields
`(name, data)` when `name` contains no `'>'`. -/
theorem splitOnFirst_gtgt_boundary :
    ∀ (name data : List Char), (∀ c ∈ name, c ≠ '>') →
      splitOnFirst ">>".toList (name ++ '>' :: '>' :: data)
        = some (name, data)
  | [], data, _ => rfl
  | c :: name, data, h => by
    have hc : ('>' : Char) ≠ c := Ne.symm (h c (by simp))
    have ih := splitOnFirst_gtgt_boundary name data
      (fun d hd => h d (by simp [hd]))
    rw [gtgtChars] at ih ⊢
    simp [splitOnFirst, startsWithChars, hc, ih]

/-- A name outside the event table is not routed to any signal. -/
theorem signalForEvent_eq_none (st : WatchSignals σ α) (name : List Char)
    (h : name ∉ knownEventNames) : signalForEvent st name = none := by
  simp only [knownEventNames, List.mem_cons, List.mem_singleton] at h
  push_neg at h
  obtain ⟨h1, h2, h3, h4, h5, h6, -⟩ := h
  unfold signalForEvent
  rw [if_neg h1, if_neg h2, if_neg h3, if_neg h4, if_neg h5, if_neg h6]

/-- Lemma: `splitLines` never returns an empty list of segments. -/
theorem splitLines_ne_nil : ∀ cs : List Char, splitLines cs ≠ []
  | [] => by simp [splitLines]
  | c :: cs => by
    by_cases h : c = '\n'
    · simp [splitLines, h]
    · simp only [splitLines, h, if_false]
      cases hs : splitLines cs <;> simp

/-- Appending a final newline to a chunk appends one empty segment to its
line split. -/
theorem splitLines_append_newline :
    ∀ cs : List Char, splitLines (cs ++ ['\n']) = splitLines cs ++ [[]]
  | [] => rfl
  | c :: cs => by
    by_cases h : c = '\n'
    · simp [splitLines, h, splitLines_append_newline cs]
    · obtain ⟨l, ls, hl⟩ : ∃ l ls, splitLines cs = l :: ls := by
        cases hs : splitLines cs with
        | nil => exact absurd hs (splitLines_ne_nil cs)
        | cons l ls => exact ⟨l, ls, rfl⟩
      have ih := splitLines_append_newline cs
      rw [hl] at ih
      simp [splitLines, h, ih, hl]

/-- Computation of `handleLine` on an `activewindowv2` line: skip when the
bound signal has no observers, otherwise emit `active_window_address`,
mapping the payload `","` to `None` and any other payload to itself. -/
theorem handleLine_activewindowv2 (st : WatchSignals σ α) (data : List Char) :
    handleLine st ("activewindowv2".toList ++ '>' :: '>' :: data)
      = if st.signal_active_window_changed.observers.isEmpty then .ok []
        else .ok [⟨"activewindowv2".toList, "active_window_address".toList,
                   if data = ",".toList then PyValue.none
                   else PyValue.str data⟩] := rfl

/-- Computation of `handleLine` on a `workspace` line: skip when the bound
signal has no observers, otherwise decode the workspace id and emit it
(`ValueError` when the decode fails). -/
theorem handleLine_workspace (st : WatchSignals σ α) (data : List Char) :
    handleLine st ("workspace".toList ++ '>' :: '>' :: data)
      = if st.signal_active_workspace_changed.observers.isEmpty then .ok []
        else
          match decodeWorkspaceId data with
          | some n => .ok [⟨"workspace".toList, "active_workspace_id".toList,
                            .int n⟩]
          | none => .error .valueError := rfl

/-- Computation of `handleLine` on a `createworkspace` line. -/
theorem handleLine_createworkspace (st : WatchSignals σ α)
    (data : List Char) :
    handleLine st ("createworkspace".toList ++ '>' :: '>' :: data)
      = if st.signal_workspace_created.observers.isEmpty then .ok []
        else
          match decodeWorkspaceId data with
          | some n => .ok [⟨"createworkspace".toList,
                            "created_workspace_id".toList, .int n⟩]
          | none => .error .valueError := rfl

/-- Computation of `handleLine` on a `destroyworkspace` line. -/
theorem handleLine_destroyworkspace (st : WatchSignals σ α)
    (data : List Char) :
    handleLine st ("destroyworkspace".toList ++ '>' :: '>' :: data)
      = if st.signal_workspace_destroyed.observers.isEmpty then .ok []
        else
          match decodeWorkspaceId data with
          | some n => .ok [⟨"destroyworkspace".toList,
                            "destroyed_workspace_id".toList, .int n⟩]
          | none => .error .valueError := rfl

/-! ## Lemmas about the integer decoding -/

/-- A decimal digit is none of the whitespace characters `int()` strips. -/
theorem digit_not_pyspace (c : Char) (h : c.isDigit = true) :
    isPySpace c = false := by
  have h1 : c ≠ ' ' := fun e => by subst e; exact absurd h (by decide)
  have h2 : c ≠ '\t' := fun e => by subst e; exact absurd h (by decide)
  have h3 : c ≠ '\n' := fun e => by subst e; exact absurd h (by decide)
  have h4 : c ≠ '\r' := fun e => by subst e; exact absurd h (by decide)
  have h5 : c ≠ '\x0b' := fun e => by subst e; exact absurd h (by decide)
  have h6 : c ≠ '\x0c' := fun e => by subst e; exact absurd h (by decide)
  simp [isPySpace, h1, h2, h3, h4, h5, h6]

/-- Lemma: `dropWhile` is the identity on lists none of whose elements satisfy
the predicate. -/
theorem dropWhile_eq_self (p : Char → Bool) :
    ∀ cs : List Char, (∀ c ∈ cs, p c = false) → cs.dropWhile p = cs
  | [], _ => rfl
  | c :: cs, h => by simp [List.dropWhile_cons, h c (by simp)]

/-- Stripping whitespace is the identity on whitespace-free strings. -/
theorem stripChars_eq_self (cs : List Char)
    (h : ∀ c ∈ cs, isPySpace c = false) : stripChars cs = cs := by
  unfold stripChars
  rw [dropWhile_eq_self _ cs h,
    dropWhile_eq_self _ cs.reverse (fun c hc => h c (List.mem_reverse.mp hc)),
    List.reverse_reverse]

/-- On an all-digit tail, the digit-part parser succeeds with the
accumulated value. -/
theorem pyDigitsGo_all_digits (cs : List Char) :
    ∀ acc : Nat, (∀ c ∈ cs, c.isDigit = true) →
      pyDigitsGo acc false cs = some (digitsVal acc cs) := by
  induction cs with
  | nil => intro acc h; rfl
  | cons c cs ih =>
    intro acc h
    have hc : c.isDigit = true := h c (by simp)
    have hund : ¬(c = '_') := fun e => by subst e; exact absurd hc (by decide)
    have ih' := ih (acc * 10 + (c.toNat - 48)) (fun d hd => h d (by simp [hd]))
    show (if c = '_' then
        if false then none else pyDigitsGo acc true cs
      else if c.isDigit then pyDigitsGo (acc * 10 + (c.toNat - 48)) false cs
      else none) = some (digitsVal acc (c :: cs))
    rw [if_neg hund, if_pos hc, ih']
    rfl

/-- On a nonempty all-digit string, the digit-part parser succeeds with
the base-10 value. -/
theorem pyDigits_all_digits (c : Char) (cs : List Char)
    (h : ∀ d ∈ c :: cs, d.isDigit = true) :
    pyDigits (c :: cs) = some (digitsVal 0 (c :: cs)) := by
  have hc : c.isDigit = true := h c (by simp)
  have hgo := pyDigitsGo_all_digits cs (c.toNat - 48)
    (fun d hd => h d (by simp [hd]))
  show (if c.isDigit then pyDigitsGo (c.toNat - 48) false cs else none)
    = some (digitsVal 0 (c :: cs))
  rw [if_pos hc, hgo]
  show some (digitsVal (c.toNat - 48) cs)
    = some (digitsVal (0 * 10 + (c.toNat - 48)) cs)
  rw [Nat.zero_mul, Nat.zero_add]

/-- Lemma: `int()` on a nonempty all-digit string yields its base-10 value. -/
theorem pyInt_digits (c : Char) (cs : List Char)
    (h : ∀ d ∈ c :: cs, d.isDigit = true) :
    pyInt (c :: cs) = some ((digitsVal 0 (c :: cs) : Nat) : Int) := by
  have hc : c.isDigit = true := h c (by simp)
  have hplus : ¬(c = '+') := fun e => by subst e; exact absurd hc (by decide)
  have hminus : ¬(c = '-') := fun e => by subst e; exact absurd hc (by decide)
  have hstrip : stripChars (c :: cs) = c :: cs :=
    stripChars_eq_self _ (fun d hd => digit_not_pyspace d (h d hd))
  rw [pyInt, hstrip]
  simp [hplus, hminus, pyDigits_all_digits c cs h]

/-- Lemma: `int()` on a minus sign followed by a nonempty all-digit string yields
the negated base-10 value. -/
theorem pyInt_neg_digits (c : Char) (cs : List Char)
    (h : ∀ d ∈ c :: cs, d.isDigit = true) :
    pyInt ('-' :: c :: cs) = some (-((digitsVal 0 (c :: cs) : Nat) : Int)) := by
  have hstrip : stripChars ('-' :: c :: cs) = '-' :: c :: cs := by
    refine stripChars_eq_self _ (fun d hd => ?_)
    rcases List.mem_cons.mp hd with rfl | hd
    · decide
    · exact digit_not_pyspace d (h d hd)
  rw [pyInt, hstrip]
  simp [pyDigits_all_digits c cs h]

/-- The sentinel payload decodes to `-99`. -/
theorem decodeWorkspaceId_special :
    decodeWorkspaceId "special".toList = some (-99) := rfl

/-- A nonempty all-digit payload decodes to its base-10 value. -/
theorem decodeWorkspaceId_digits (c : Char) (cs : List Char)
    (h : ∀ d ∈ c :: cs, d.isDigit = true) :
    decodeWorkspaceId (c :: cs) = some ((digitsVal 0 (c :: cs) : Nat) : Int) := by
  have hne : ¬((c :: cs) = "special".toList) := by
    intro e
    have hc : c.isDigit = true := h c (by simp)
    have hcs : c = 's' := by
      have := congrArg List.head? e
      simpa using this
    rw [hcs] at hc
    exact absurd hc (by decide)
  unfold decodeWorkspaceId
  rw [if_neg hne, pyInt_digits c cs h]

/-- A minus sign followed by digits decodes to the negated value. -/
theorem decodeWorkspaceId_neg_digits (c : Char) (cs : List Char)
    (h : ∀ d ∈ c :: cs, d.isDigit = true) :
    decodeWorkspaceId ('-' :: c :: cs)
      = some (-((digitsVal 0 (c :: cs) : Nat) : Int)) := by
  have hne : ¬(('-' :: c :: cs) = "special".toList) := by
    intro e
    have h2 := congrArg List.head? e
    simp at h2
  unfold decodeWorkspaceId
  rw [if_neg hne, pyInt_neg_digits c cs h]

/-- A line raising `ValueError` aborts the per-line loop: the remaining
lines are not processed and the exception propagates. -/
theorem handleLines_cons_error (st : WatchSignals σ α) (l : List Char)
    (ls : List (List Char)) (h : handleLine st l = .error .valueError) :
    handleLines st (l :: ls) = .error .valueError := by
  show (match handleLine st l with
    | .error e => Except.error e
    | .ok es =>
      match handleLines st ls with
      | .error e => Except.error e
      | .ok rest => Except.ok (es ++ rest)) = Except.error PyErr.valueError
  rw [h]

/-- A line producing no emissions leaves the processing of the remaining
lines unchanged. -/
theorem handleLines_cons_ok_nil (st : WatchSignals σ α) (l : List Char)
    (ls : List (List Char)) (h : handleLine st l = .ok []) :
    handleLines st (l :: ls) = handleLines st ls := by
  show (match handleLine st l with
    | .error e => Except.error e
    | .ok es =>
      match handleLines st ls with
      | .error e => Except.error e
      | .ok rest => Except.ok (es ++ rest)) = handleLines st ls
  rw [h]
  cases hr : handleLines st ls <;> simp

/-! ## Claim theorems about the event dispatcher -/

/-- C4: an event line whose name (the part before the `'>>'` separator) is
not among the event names the dispatcher models produces zero emissions,
raises no error, and the remaining lines are processed as if the line were
absent. -/
theorem unknown_event_name_skipped (st : WatchSignals σ α)
    (name data : List Char) (rest : List (List Char))
    (hname : ∀ c ∈ name, c ≠ '>') (hunknown : name ∉ knownEventNames) :
    handleLine st (name ++ '>' :: '>' :: data) = .ok []
    ∧ handleLines st ((name ++ '>' :: '>' :: data) :: rest)
        = handleLines st rest := by
  have h1 : handleLine st (name ++ '>' :: '>' :: data) = .ok [] := by
    simp only [handleLine, splitOnFirst_gtgt_boundary name data hname,
      signalForEvent_eq_none st name hunknown]
  exact ⟨h1, handleLines_cons_ok_nil st _ rest h1⟩

/-- Witness for C4: `"futureevent>>x,y"` yields zero emissions, no error,
and does not disturb the processing of a following line. -/
theorem unknown_event_name_skipped_witness :
    handleLine noObsState "futureevent>>x,y".toList = .ok []
    ∧ handleLines noObsState
        ["futureevent>>x,y".toList, "workspace>>1".toList]
        = handleLines noObsState ["workspace>>1".toList] :=
  unknown_event_name_skipped noObsState "futureevent".toList "x,y".toList
    ["workspace>>1".toList] (by decide) (by decide)

/-- C7: when the signal bound to an event name has no observers, the
dispatcher skips the line before any payload decoding, so even an
undecodable payload cannot raise: the line yields zero emissions and no
error, whatever the payload. -/
theorem no_observers_skips_decode (st : WatchSignals σ α)
    (name data : List Char) (sig : Signal σ α)
    (hname : ∀ c ∈ name, c ≠ '>')
    (hsig : signalForEvent st name = some sig) (hobs : sig.observers = []) :
    handleLine st (name ++ '>' :: '>' :: data) = .ok [] := by
  simp only [handleLine, splitOnFirst_gtgt_boundary name data hname, hsig]
  rw [hobs]
  simp

/-- Witness for C7: `"workspace>>garbage"` has an undecodable payload, yet
with no observers on the bound signal the line is skipped without error. -/
theorem no_observers_skips_decode_witness :
    handleLine noObsState "workspace>>garbage".toList = .ok [] :=
  no_observers_skips_decode noObsState "workspace".toList "garbage".toList
    ⟨(), []⟩ (by decide) rfl rfl

/-- C10: an `activewindowv2` line whose payload is exactly `","` emits
`active_window_address = None` on the bound signal, and any other payload
is emitted verbatim as a string (stated for a signal with observers; with
none the line is skipped, per C7). -/
theorem activewindowv2_comma_emits_none (st : WatchSignals σ α)
    (data : List Char)
    (hobs : st.signal_active_window_changed.observers ≠ []) :
    handleLine st ("activewindowv2".toList ++ '>' :: '>' :: data)
      = .ok [⟨"activewindowv2".toList, "active_window_address".toList,
             if data = ",".toList then PyValue.none
             else PyValue.str data⟩] := by
  have h1 := handleLine_activewindowv2 st data
  rw [isEmpty_false_of_ne_nil hobs] at h1
  simpa using h1

/-- Witness for C10: payload `","` emits `None`; payload `"0xabc"` is
emitted verbatim. -/
theorem activewindowv2_comma_emits_none_witness :
    handleLine wsObsState "activewindowv2>>,".toList
      = .ok [⟨"activewindowv2".toList, "active_window_address".toList,
             PyValue.none⟩]
    ∧ handleLine wsObsState "activewindowv2>>0xabc".toList
      = .ok [⟨"activewindowv2".toList, "active_window_address".toList,
             PyValue.str "0xabc".toList⟩] := by
  constructor
  · have := activewindowv2_comma_emits_none wsObsState ",".toList (by decide)
    rw [if_pos rfl] at this
    exact this
  · have := activewindowv2_comma_emits_none wsObsState "0xabc".toList
      (by decide)
    rw [if_neg (by decide)] at this
    exact this

/-- C5: for workspace events, the payload `"special"` decodes to the
sentinel `-99` (never a parse failure), and a decimal integer literal
(optionally negative) decodes to that integer; with observers present,
each of the three workspace event lines with payload `"special"` emits
`-99`. -/
theorem workspace_id_decoding (st : WatchSignals σ α) :
    decodeWorkspaceId "special".toList = some (-99)
    ∧ (∀ (c : Char) (cs : List Char), (∀ d ∈ c :: cs, d.isDigit = true) →
        decodeWorkspaceId (c :: cs)
          = some ((digitsVal 0 (c :: cs) : Nat) : Int))
    ∧ (∀ (c : Char) (cs : List Char), (∀ d ∈ c :: cs, d.isDigit = true) →
        decodeWorkspaceId ('-' :: c :: cs)
          = some (-((digitsVal 0 (c :: cs) : Nat) : Int)))
    ∧ (st.signal_workspace_created.observers ≠ [] →
        handleLine st "createworkspace>>special".toList
          = .ok [⟨"createworkspace".toList, "created_workspace_id".toList,
                  .int (-99)⟩])
    ∧ (st.signal_workspace_destroyed.observers ≠ [] →
        handleLine st "destroyworkspace>>special".toList
          = .ok [⟨"destroyworkspace".toList, "destroyed_workspace_id".toList,
                  .int (-99)⟩])
    ∧ (st.signal_active_workspace_changed.observers ≠ [] →
        handleLine st "workspace>>special".toList
          = .ok [⟨"workspace".toList, "active_workspace_id".toList,
                  .int (-99)⟩]) := by
  refine ⟨decodeWorkspaceId_special, decodeWorkspaceId_digits,
    decodeWorkspaceId_neg_digits, ?_, ?_, ?_⟩
  · intro hobs
    have h1 := handleLine_createworkspace st "special".toList
    rw [isEmpty_false_of_ne_nil hobs, decodeWorkspaceId_special] at h1
    simpa using h1
  · intro hobs
    have h1 := handleLine_destroyworkspace st "special".toList
    rw [isEmpty_false_of_ne_nil hobs, decodeWorkspaceId_special] at h1
    simpa using h1
  · intro hobs
    have h1 := handleLine_workspace st "special".toList
    rw [isEmpty_false_of_ne_nil hobs, decodeWorkspaceId_special] at h1
    simpa using h1

/-- Witness for C5: `"special"` decodes to `-99`; `"42"` decodes to `42`;
`"-7"` decodes to `-7`; the `workspace>>special` line emits `-99` when
observed. -/
theorem workspace_id_decoding_witness :
    decodeWorkspaceId "special".toList = some (-99)
    ∧ decodeWorkspaceId "42".toList = some 42
    ∧ decodeWorkspaceId "-7".toList = some (-7)
    ∧ handleLine allObsState "workspace>>special".toList
        = .ok [⟨"workspace".toList, "active_workspace_id".toList,
                .int (-99)⟩] := by
  refine ⟨(workspace_id_decoding allObsState).1, ?_, ?_,
    (workspace_id_decoding allObsState).2.2.2.2.2 (by decide)⟩
  · have := (workspace_id_decoding allObsState).2.1 '4' ['2'] (by decide)
    exact this.trans (by rfl)
  · have := (workspace_id_decoding allObsState).2.2.1 '7' [] (by decide)
    exact this.trans (by rfl)

/-- C2 counterexample: the chunk `"malformed\nworkspace>>1\n"` starts with
a line having no `'>>'` separator; `_handle_socket_data` raises
`ValueError` on it and the following well-formed line is never processed —
the malformed line is not skipped and the loop is aborted. -/
theorem malformed_line_not_skipped_counterexample :
    handleSocketData wsObsState "malformed\nworkspace>>1\n".toList
      = .error .valueError := rfl

/-- C2 amended: a malformed event line is not skipped: a line containing
no `'>>'` separator makes `_handle_socket_data` raise `ValueError`,
aborting the processing of the remaining lines of the chunk (and with it
the watch loop); likewise a known workspace event whose payload is neither
an integer literal nor `'special'` raises `ValueError` when its signal has
observers.  Only lines with unknown event names, or whose signal has no
observers, are skipped. -/
theorem malformed_line_raises (st : WatchSignals σ α) (line data : List Char)
    (rest : List (List Char)) (hline : ∀ c ∈ line, c ≠ '>')
    (hbad : pyInt data = none) (hns : data ≠ "special".toList)
    (hobs : st.signal_active_workspace_changed.observers ≠ []) :
    handleLine st line = .error .valueError
    ∧ handleLines st (line :: rest) = .error .valueError
    ∧ handleLine st ("workspace".toList ++ '>' :: '>' :: data)
        = .error .valueError := by
  have h1 : handleLine st line = .error .valueError := by
    simp only [handleLine, splitOnFirst_gtgt_eq_none line hline]
  refine ⟨h1, handleLines_cons_error st line rest h1, ?_⟩
  have h2 := handleLine_workspace st data
  have hdec : decodeWorkspaceId data = none := by
    unfold decodeWorkspaceId
    rw [if_neg hns, hbad]
  rw [isEmpty_false_of_ne_nil hobs, hdec] at h2
  simpa using h2

/-- Witness for the amended C2: the separator-free line `"malformed"`
raises and aborts the chunk; `"workspace>>garbage"` raises under an
observer. -/
theorem malformed_line_raises_witness :
    handleLine wsObsState "malformed".toList = .error .valueError
    ∧ handleLines wsObsState ["malformed".toList, "workspace>>1".toList]
        = .error .valueError
    ∧ handleLine wsObsState "workspace>>garbage".toList
        = .error .valueError :=
  malformed_line_raises wsObsState "malformed".toList "garbage".toList
    ["workspace>>1".toList] (by decide) (by rfl) (by decide) (by decide)

/-- C3 counterexample: the chunk `"workspace>>5"` ends in a fragment with
no line terminator, yet the dispatcher parses it as a complete event line
and emits on the bound signal — the fragment is neither buffered nor
dropped. -/
theorem trailing_fragment_emitted_counterexample :
    handleSocketData wsObsState "workspace>>5".toList
      = .ok [⟨"workspace".toList, "active_workspace_id".toList,
              .int 5⟩] := rfl

/-- C3 amended: the dispatcher splits the chunk on newlines and processes
every nonempty segment — including a trailing fragment not terminated by a
newline — exactly as if it were a complete event line: a chunk is handled
identically with and without a terminating newline. -/
theorem trailing_fragment_treated_as_complete (st : WatchSignals σ α)
    (data : List Char) :
    handleSocketData st (data ++ ['\n']) = handleSocketData st data := by
  unfold handleSocketData
  rw [splitLines_append_newline, List.filter_append]
  simp [List.filter]

/-! ## Claim theorem about the watch loop -/

/-- The loop body never closes the socket itself; `close()` comes only
from the `finally` block. -/
theorem watchLoop_no_close (st : WatchSignals σ α) :
    ∀ script, SocketAction.close ∉ (watchLoop st script).1
  | [] => by simp [watchLoop]
  | .error e :: rest => by simp [watchLoop]
  | .ok data :: rest => by
    cases hh : handleSocketData st data with
    | error e => simp [watchLoop, hh]
    | ok es =>
      have ih := watchLoop_no_close st rest
      simp [watchLoop, hh, ih]

/-- C8: on every exit path of the watch loop — an exception raised while
connecting, while waiting or reading, or while handling data — `close()`
is invoked on the event channel, exactly once, as the final action of the
run. -/
theorem watch_close_on_exit (st : WatchSignals σ α)
    (connectR : Except PyErr Unit)
    (script : List (Except PyErr (List Char))) (e : PyErr)
    (hexit : (watchRun st connectR script).2 = some e) :
    (watchRun st connectR script).1.getLast? = some SocketAction.close
    ∧ (watchRun st connectR script).1.count SocketAction.close = 1 := by
  cases connectR with
  | error e' => exact ⟨rfl, rfl⟩
  | ok u =>
    cases u
    cases ho : (watchLoop st script).2 with
    | none => simp [watchRun, ho] at hexit
    | some e'' =>
      have hnc := watchLoop_no_close st script
      have hrun : (watchRun st (.ok ()) script).1
          = SocketAction.connect
            :: ((watchLoop st script).1 ++ [SocketAction.close]) := by
        simp only [watchRun]
        rw [ho]
        rfl
      constructor
      · rw [hrun, ← List.cons_append, List.getLast?_concat]
      · rw [hrun]
        simp [List.count_cons, List.count_append,
          List.count_eq_zero.mpr hnc]

/-- Witness for C8: a run that handles one chunk and then fails in
`wait()` ends with exactly one `close()` as its final action. -/
theorem watch_close_on_exit_witness :
    (watchRun noObsState (.ok ())
        [.ok "workspace>>1\n".toList, .error .valueError]).1.getLast?
      = some SocketAction.close
    ∧ (watchRun noObsState (.ok ())
        [.ok "workspace>>1\n".toList, .error .valueError]).1.count
        SocketAction.close = 1 :=
  watch_close_on_exit noObsState (.ok ())
    [.ok "workspace>>1\n".toList, .error .valueError] .valueError rfl

end Hyprpy
